import Mathlib

/-!
Shallow embedding of the gym class-booking service (`src/main.go`).

The Go program keeps two in-memory slices (`classes`, `bookings`), two
integer counters (`classId`, `bookingId`, both starting at 1) and a single
mutex.  Two HTTP handlers mutate this state: `classHandler` registers a
class and `bookingHandler` books a member into a class on a date.  Dates
are strings parsed with Go's `time.Parse("02-01-2006", s)` (DD-MM-YYYY).
Persistence writes the whole slice to a JSON file after each append; a
failed write is reported but nothing is rolled back.  `main` reloads the
two slices from disk at startup but leaves both counters at 1.

The mutex makes each handler atomic, so concurrent executions are
modelled as sequences of whole-handler steps.  Persistence success or
failure is a Boolean parameter of each step.
-/

namespace Gym

/-- A calendar date as Go's `time.Parse` produces it (year, month, day;
the handlers never use a time-of-day component). -/
structure Date where
  year : Nat
  month : Nat
  day : Nat
deriving DecidableEq, Repr

/-- Go `time.Time.Before` restricted to dates: chronological (lexicographic)
comparison of (year, month, day). -/
def dateBefore (a b : Date) : Bool :=
  decide (a.year < b.year ∨ (a.year = b.year ∧
    (a.month < b.month ∨ (a.month = b.month ∧ a.day < b.day))))

/-- Go `time.Time.After` restricted to dates. -/
def dateAfter (a b : Date) : Bool :=
  dateBefore b a

/-- Leap-year rule used by Go's date validation. -/
def isLeap (y : Nat) : Bool :=
  y % 4 == 0 && (y % 100 != 0 || y % 400 == 0)

/-- Days in a month, as Go's `time` package counts them. -/
def daysIn (y m : Nat) : Nat :=
  if m == 2 then (if isLeap y then 29 else 28)
  else if m == 4 || m == 6 || m == 9 || m == 11 then 30
  else 31

/-- ASCII digit test. -/
def isDigitChar (c : Char) : Bool :=
  '0' ≤ c && c ≤ '9'

/-- Numeric value of an ASCII digit. -/
def digitVal (c : Char) : Nat :=
  c.toNat - 48

/-- The fixed textual layout `DD-MM-YYYY`: exactly ten characters, two
digits, a dash, two digits, a dash, four digits. -/
def dateLayout (s : String) : Bool :=
  match s.data with
  | [d1, d2, h1, m1, m2, h2, y1, y2, y3, y4] =>
    isDigitChar d1 && isDigitChar d2 && h1 == '-' &&
    isDigitChar m1 && isDigitChar m2 && h2 == '-' &&
    isDigitChar y1 && isDigitChar y2 && isDigitChar y3 && isDigitChar y4
  | _ => false

/-- Go `time.Parse("02-01-2006", s)`: the input must be exactly the
`DD-MM-YYYY` layout and a valid calendar date (month 1–12, day within the
month).  `none` models a parse error. -/
def parseDate (s : String) : Option Date :=
  match s.data with
  | [d1, d2, h1, m1, m2, h2, y1, y2, y3, y4] =>
    if isDigitChar d1 && isDigitChar d2 && h1 == '-' &&
       isDigitChar m1 && isDigitChar m2 && h2 == '-' &&
       isDigitChar y1 && isDigitChar y2 && isDigitChar y3 && isDigitChar y4 then
      let day := 10 * digitVal d1 + digitVal d2
      let month := 10 * digitVal m1 + digitVal m2
      let year := 1000 * digitVal y1 + 100 * digitVal y2 + 10 * digitVal y3 + digitVal y4
      if 1 ≤ month ∧ month ≤ 12 ∧ 1 ≤ day ∧ day ≤ daysIn year month then
        some ⟨year, month, day⟩
      else none
    else none
  | _ => none

/-- Go `time.Parse` with the error ignored (`startDate, _ := time.Parse(...)`
in the booking handler's class scan): a failed parse yields Go's zero time,
whose date is January 1 of year 1. -/
def parseOrZero (s : String) : Date :=
  (parseDate s).getD ⟨1, 1, 1⟩

/-- `Class` struct of `src/main.go` (JSON fields `id`, `className`,
`startDate`, `endDate`, `capacity`; dates kept as raw strings). -/
structure Class where
  id : Int
  className : String
  startDate : String
  endDate : String
  capacity : Int
deriving DecidableEq, Repr

/-- `Booking` struct of `src/main.go`. -/
structure Booking where
  id : Int
  memberName : String
  date : String
  className : String
deriving DecidableEq, Repr

/-- The package-level mutable state of `src/main.go`: the two slices and the
two incremental ID counters (the mutex is modelled by step atomicity). -/
structure ServerState where
  classes : List Class
  bookings : List Booking
  classId : Int
  bookingId : Int
deriving DecidableEq, Repr

/-- Error outcomes of the two handlers, one constructor per distinct error
response the handlers can send after JSON decoding succeeded. -/
inductive ApiError where
  /-- "Invalid data format" / "Invalid field format": an empty required
  field, or capacity ≤ 0. -/
  | invalidFields
  /-- "Invalid startDate format, use DD-MM-YYYY". -/
  | invalidStartDateFormat
  /-- "Invalid endDate format, use DD-MM-YYYY". -/
  | invalidEndDateFormat
  /-- "Invalid date format, use DD-MM-YYYY" (booking date). -/
  | invalidDateFormat
  /-- "endDate must be after startDate". -/
  | invalidRange
  /-- "Class is not available on the specified date". -/
  | classUnavailable
  /-- "No available slots for the selected class on this date". -/
  | capacityExceeded
  /-- "Failed to save class data" / "Failed to save booking data". -/
  | persistenceFailure
deriving DecidableEq, Repr

/-- The per-class test of the scan loop in `bookingHandler`: the class name
matches exactly and the booking date is neither before the class's start
nor after its end (inclusive range).  Parse errors on the stored date
strings are ignored by the Go code (`startDate, _ := time.Parse(...)`),
yielding the zero time. -/
def activeOn (name : String) (d : Date) (c : Class) : Bool :=
  decide (c.className = name) &&
  !dateBefore d (parseOrZero c.startDate) && !dateAfter d (parseOrZero c.endDate)

/-- The class-scan loop of `bookingHandler` (spec: `FindActiveOn`): first
stored class, in insertion order, satisfying `activeOn`. -/
def findActiveOn (classes : List Class) (name : String) (d : Date) : Option Class :=
  classes.find? (activeOn name d)

/-- The booking-count loop of `bookingHandler` (spec: `CountFor`): bookings
whose class name and raw date string both match. -/
def countFor (bookings : List Booking) (name date : String) : Nat :=
  (bookings.filter fun b => decide (b.className = name ∧ b.date = date)).length

/-- `classHandler` after JSON decoding, as a state transformer.  `persistOk`
is the outcome of the `writeDataToJsonFile("classes.json", ...)` call.  The
returned state is the package-level state after the handler returns; note
that on a persistence failure the append and the counter increment have
already happened. -/
def classHandler (persistOk : Bool) (s : ServerState) (newClass : Class) :
    Except ApiError Class × ServerState :=
  if newClass.className = "" ∨ newClass.startDate = "" ∨
     newClass.endDate = "" ∨ newClass.capacity ≤ 0 then
    (.error .invalidFields, s)
  else
    match parseDate newClass.startDate with
    | none => (.error .invalidStartDateFormat, s)
    | some startD =>
      match parseDate newClass.endDate with
      | none => (.error .invalidEndDateFormat, s)
      | some endD =>
        if dateBefore endD startD then
          (.error .invalidRange, s)
        else
          let stored : Class := { newClass with id := s.classId }
          let s' : ServerState :=
            { s with classes := s.classes ++ [stored], classId := s.classId + 1 }
          if persistOk then (.ok stored, s')
          else (.error .persistenceFailure, s')

/-- `bookingHandler` after JSON decoding, as a state transformer.  On
success the stored booking is returned together with the `availableSlots`
value of the response (`capacity - currentBookings - 1`). -/
def bookingHandler (persistOk : Bool) (s : ServerState) (newBooking : Booking) :
    Except ApiError (Booking × Int) × ServerState :=
  if newBooking.memberName = "" ∨ newBooking.date = "" ∨
     newBooking.className = "" then
    (.error .invalidFields, s)
  else
    match parseDate newBooking.date with
    | none => (.error .invalidDateFormat, s)
    | some bookingDate =>
      match findActiveOn s.classes newBooking.className bookingDate with
      | none => (.error .classUnavailable, s)
      | some classFound =>
        let currentBookings : Int := countFor s.bookings newBooking.className newBooking.date
        let availableSlots : Int := classFound.capacity - currentBookings
        if availableSlots ≤ 0 then
          (.error .capacityExceeded, s)
        else
          let stored : Booking := { newBooking with id := s.bookingId }
          let s' : ServerState :=
            { s with bookings := s.bookings ++ [stored], bookingId := s.bookingId + 1 }
          if persistOk then (.ok (stored, availableSlots - 1), s')
          else (.error .persistenceFailure, s')

/-- State of a fresh process with no persisted files: empty slices,
both counters at their initializers (1). -/
def initialState : ServerState :=
  ⟨[], [], 1, 1⟩

/-- State right after `main` restarts and reloads `classes.json` and
`bookings.json`: the slices are seeded from the files, but `classId` and
`bookingId` keep their package-level initializers (1) — `main` never
restores them. -/
def restartState (cs : List Class) (bs : List Booking) : ServerState :=
  ⟨cs, bs, 1, 1⟩

/-- One inbound request together with the outcome of its persistence
write, the unit of interleaving the mutex allows. -/
inductive Request where
  | reg (persistOk : Bool) (c : Class)
  | book (persistOk : Bool) (b : Booking)

/-- State after one handler call. -/
def applyReq (s : ServerState) : Request → ServerState
  | .reg ok c => (classHandler ok s c).2
  | .book ok b => (bookingHandler ok s b).2

/-- State after a sequence of handler calls (the mutex serializes every
concurrent schedule into such a sequence). -/
def runReqs (s : ServerState) (rs : List Request) : ServerState :=
  rs.foldl applyReq s

/-- The capacity invariant the code actually maintains: for every
parseable date string, the bookings counted for a class name and that
date never exceed the capacity of the class the scan selects for them
(the first same-named definition whose range contains the date), and
the count is zero when no stored class is active on the date. -/
def capacityInv (s : ServerState) : Prop :=
  ∀ (name dstr : String) (d : Date), parseDate dstr = some d →
    (∀ c, findActiveOn s.classes name d = some c →
      (countFor s.bookings name dstr : Int) ≤ c.capacity) ∧
    (findActiveOn s.classes name d = none → countFor s.bookings name dstr = 0)

/-- The identity invariant: within one process run the stored classes and
bookings carry the IDs 1, 2, 3, … in insertion order, gap-free, and each
counter sits one past the last assigned ID. -/
def idsSequential (s : ServerState) : Prop :=
  s.classId = (s.classes.length : Int) + 1 ∧
  s.bookingId = (s.bookings.length : Int) + 1 ∧
  (∀ i, ∀ hi : i < s.classes.length, (s.classes[i]).id = (i : Int) + 1) ∧
  (∀ i, ∀ hi : i < s.bookings.length, (s.bookings[i]).id = (i : Int) + 1)

/-- A request sequence registering two same-named, same-range "Yoga"
classes with capacities 2 and 1 and then booking "16-12-2024" twice. -/
def twoYogaRun : List Request :=
  [.reg true ⟨0, "Yoga", "01-12-2024", "31-12-2024", 2⟩,
   .reg true ⟨0, "Yoga", "01-12-2024", "31-12-2024", 1⟩,
   .book true ⟨0, "Asha", "16-12-2024", "Yoga"⟩,
   .book true ⟨0, "Ben", "16-12-2024", "Yoga"⟩]

/-- The empty string does not parse as a date. -/
theorem parseDate_empty : parseDate "" = none := rfl

/-- A string that parses is non-empty. -/
theorem parseDate_ne_empty {s : String} {d : Date} (h : parseDate s = some d) :
    ¬s = "" := by
  intro he
  rw [he, parseDate_empty] at h
  cases h

/-- Counting over an extended ledger: the appended booking contributes one
when its class name and date both match, nothing otherwise. -/
theorem countFor_append (bs : List Booking) (b : Booking) (name date : String) :
    countFor (bs ++ [b]) name date =
      countFor bs name date + (if b.className = name ∧ b.date = date then 1 else 0) := by
  unfold countFor
  rw [List.filter_append]
  by_cases h : b.className = name ∧ b.date = date <;>
    simp [List.filter, h]

/-- A hit in the scanned prefix is preserved by appending classes. -/
theorem findActiveOn_append_of_some {cs : List Class} {name : String} {d : Date}
    {c : Class} (l : List Class) (h : findActiveOn cs name d = some c) :
    findActiveOn (cs ++ l) name d = some c := by
  unfold findActiveOn at *
  induction cs with
  | nil => cases h
  | cons a as ih =>
    by_cases ha : activeOn name d a
    · simp only [List.cons_append, List.find?_cons_of_pos _ ha] at h ⊢
      exact h
    · simp only [List.cons_append, List.find?_cons_of_neg _ ha] at h ⊢
      exact ih h

/-- A miss in the scanned prefix defers to the appended classes. -/
theorem findActiveOn_append_of_none {cs : List Class} {name : String} {d : Date}
    (l : List Class) (h : findActiveOn cs name d = none) :
    findActiveOn (cs ++ l) name d = findActiveOn l name d := by
  unfold findActiveOn at *
  induction cs with
  | nil => simp
  | cons a as ih =>
    by_cases ha : activeOn name d a
    · simp only [List.find?_cons_of_pos _ ha] at h
      cases h
    · simp only [List.cons_append, List.find?_cons_of_neg _ ha] at h ⊢
      exact ih h

/-- Success characterization of `bookingHandler`: the call returns `ok`
exactly when the fields are non-empty, the date parses, the class scan
hits, and the pre-admission count is strictly below the found class's
capacity; the stored booking, the returned slot count and the new state
are then determined. -/
theorem bookingHandler_ok_iff (p : Bool) (s : ServerState) (nb : Booking)
    (b : Booking) (n : Int) (s' : ServerState) :
    bookingHandler p s nb = (.ok (b, n), s') ↔
      p = true ∧ ¬nb.memberName = "" ∧ ¬nb.date = "" ∧ ¬nb.className = "" ∧
      ∃ d c, parseDate nb.date = some d ∧
        findActiveOn s.classes nb.className d = some c ∧
        (countFor s.bookings nb.className nb.date : Int) < c.capacity ∧
        b = { nb with id := s.bookingId } ∧
        n = c.capacity - (countFor s.bookings nb.className nb.date : Int) - 1 ∧
        s' = { s with bookings := s.bookings ++ [{ nb with id := s.bookingId }],
                      bookingId := s.bookingId + 1 } := by
  unfold bookingHandler
  constructor
  · intro h
    dsimp only at h
    split at h
    · cases h
    · next hfields =>
      push_neg at hfields
      obtain ⟨h1, h2, h3⟩ := hfields
      split at h
      · cases h
      · next d hd =>
        split at h
        · cases h
        · next c hc =>
          by_cases hle :
              c.capacity - (countFor s.bookings nb.className nb.date : Int) ≤ 0
          · rw [if_pos hle] at h
            cases h
          · rw [if_neg hle] at h
            by_cases hp : p = true
            · rw [if_pos hp] at h
              simp only [Prod.mk.injEq, Except.ok.injEq] at h
              obtain ⟨⟨hb, hn⟩, hs⟩ := h
              exact ⟨hp, h1, h2, h3, d, c, hd, hc, by omega, hb.symm, by omega, hs.symm⟩
            · rw [if_neg hp] at h
              cases h
  · rintro ⟨rfl, h1, h2, h3, d, c, hd, hc, hlt, rfl, rfl, rfl⟩
    dsimp only
    rw [if_neg (by tauto)]
    rw [hd]
    dsimp only
    rw [hc]
    dsimp only
    rw [if_neg (by omega)]
    rfl

/-- C3: every successful CreateBooking returns `availableSlots` equal to the
matching class's capacity minus the pre-booking count of bookings for that
class name and date, minus one (slots remaining after this booking). -/
theorem availableSlots_eq_capacity_sub_count_sub_one (p : Bool) (s : ServerState)
    (nb b : Booking) (n : Int) (s' : ServerState)
    (h : bookingHandler p s nb = (.ok (b, n), s')) :
    ∃ c, findActiveOn s.classes nb.className (parseOrZero nb.date) = some c ∧
      n = c.capacity - (countFor s.bookings nb.className nb.date : Int) - 1 := by
  obtain ⟨-, -, -, -, d, c, hd, hc, -, -, hn, -⟩ := (bookingHandler_ok_iff ..).mp h
  refine ⟨c, ?_, hn⟩
  unfold parseOrZero
  rw [hd]
  exact hc

/-- Witness for C3: scenario 2 of the spec — the first booking against a
fresh capacity-10 "Pilates" class returns `availableSlots = 9`. -/
theorem availableSlots_witness :
    ∃ c, findActiveOn (⟨[⟨1, "Pilates", "01-12-2024", "20-12-2024", 10⟩], [], 2, 1⟩ :
        ServerState).classes
      (⟨0, "Rahul R P", "16-12-2024", "Pilates"⟩ : Booking).className
      (parseOrZero (⟨0, "Rahul R P", "16-12-2024", "Pilates"⟩ : Booking).date) = some c ∧
      (9 : Int) = c.capacity -
        (countFor (⟨[⟨1, "Pilates", "01-12-2024", "20-12-2024", 10⟩], [], 2, 1⟩ :
            ServerState).bookings
          (⟨0, "Rahul R P", "16-12-2024", "Pilates"⟩ : Booking).className
          (⟨0, "Rahul R P", "16-12-2024", "Pilates"⟩ : Booking).date : Int) - 1 :=
  availableSlots_eq_capacity_sub_count_sub_one true
    ⟨[⟨1, "Pilates", "01-12-2024", "20-12-2024", 10⟩], [], 2, 1⟩
    ⟨0, "Rahul R P", "16-12-2024", "Pilates"⟩
    ⟨1, "Rahul R P", "16-12-2024", "Pilates"⟩ 9
    ⟨[⟨1, "Pilates", "01-12-2024", "20-12-2024", 10⟩],
      [⟨1, "Rahul R P", "16-12-2024", "Pilates"⟩], 2, 2⟩ rfl

/-- C7: whenever a handler rejects with any error other than the
persistence failure, the state (class list, booking list, both counters)
is exactly what it was before the call. -/
theorem rejection_is_side_effect_free (p : Bool) (s : ServerState)
    (nc : Class) (nb : Booking) :
    (∀ e s', classHandler p s nc = (.error e, s') →
      ¬e = .persistenceFailure → s' = s) ∧
    (∀ e s', bookingHandler p s nb = (.error e, s') →
      ¬e = .persistenceFailure → s' = s) := by
  constructor
  · intro e s' h hne
    unfold classHandler at h
    dsimp only at h
    split at h
    · exact ((Prod.mk.injEq ..).mp h).2.symm
    · split at h
      · exact ((Prod.mk.injEq ..).mp h).2.symm
      · split at h
        · exact ((Prod.mk.injEq ..).mp h).2.symm
        · split at h
          · exact ((Prod.mk.injEq ..).mp h).2.symm
          · split at h
            · exact absurd ((Prod.mk.injEq ..).mp h).1 (by simp)
            · exact absurd (Except.error.inj ((Prod.mk.injEq ..).mp h).1).symm hne
  · intro e s' h hne
    unfold bookingHandler at h
    dsimp only at h
    split at h
    · exact ((Prod.mk.injEq ..).mp h).2.symm
    · split at h
      · exact ((Prod.mk.injEq ..).mp h).2.symm
      · split at h
        · exact ((Prod.mk.injEq ..).mp h).2.symm
        · split at h
          · exact ((Prod.mk.injEq ..).mp h).2.symm
          · split at h
            · exact absurd ((Prod.mk.injEq ..).mp h).1 (by simp)
            · exact absurd (Except.error.inj ((Prod.mk.injEq ..).mp h).1).symm hne

/-- C8: when the persistence write fails after a valid request passed all
checks, the handler surfaces the persistence failure but the in-memory
append and the counter increment are kept (no rollback), for both class
registration and booking creation. -/
theorem persistence_failure_keeps_append (s : ServerState) (nc : Class) (nb : Booking) :
    (∀ d1 d2, ¬nc.className = "" → ¬nc.capacity ≤ 0 →
      parseDate nc.startDate = some d1 → parseDate nc.endDate = some d2 →
      dateBefore d2 d1 = false →
      classHandler false s nc =
        (.error .persistenceFailure,
          { s with classes := s.classes ++ [{ nc with id := s.classId }],
                   classId := s.classId + 1 })) ∧
    (∀ d c, ¬nb.memberName = "" → ¬nb.className = "" →
      parseDate nb.date = some d →
      findActiveOn s.classes nb.className d = some c →
      (countFor s.bookings nb.className nb.date : Int) < c.capacity →
      bookingHandler false s nb =
        (.error .persistenceFailure,
          { s with bookings := s.bookings ++ [{ nb with id := s.bookingId }],
                   bookingId := s.bookingId + 1 })) := by
  constructor
  · intro d1 d2 hn hcap h1 h2 hbf
    unfold classHandler
    dsimp only
    rw [if_neg (by
      push_neg
      exact ⟨hn, parseDate_ne_empty h1, parseDate_ne_empty h2, lt_of_not_le hcap⟩)]
    rw [h1]
    dsimp only
    rw [h2]
    dsimp only
    rw [if_neg (by simp [hbf])]
    rfl
  · intro d c hm hn hd hc hlt
    unfold bookingHandler
    dsimp only
    rw [if_neg (by
      push_neg
      exact ⟨hm, parseDate_ne_empty hd, hn⟩)]
    rw [hd]
    dsimp only
    rw [hc]
    dsimp only
    rw [if_neg (by omega)]
    rfl

/-- Irreflexivity of the strict date order: no date is before itself, so a
class whose end date equals its start date passes the range check. -/
theorem dateBefore_self (d : Date) : dateBefore d d = false := by
  simp [dateBefore]

/-- C6: with otherwise-valid fields and both dates parsing, RegisterClass
rejects with InvalidRange exactly when the end date is strictly before the
start date; in particular a class whose end date equals its start date is
accepted (with the next ID). -/
theorem invalidRange_iff_end_before_start (p : Bool) (s : ServerState) (nc : Class)
    (sd ed : Date) (hn : ¬nc.className = "") (hcap : ¬nc.capacity ≤ 0)
    (hs : parseDate nc.startDate = some sd) (he : parseDate nc.endDate = some ed) :
    ((classHandler p s nc).1 = .error .invalidRange ↔ dateBefore ed sd = true) ∧
    (nc.endDate = nc.startDate →
      (classHandler true s nc).1 = .ok { nc with id := s.classId }) := by
  have hfields : ¬(nc.className = "" ∨ nc.startDate = "" ∨ nc.endDate = "" ∨
      nc.capacity ≤ 0) := by
    push_neg
    exact ⟨hn, parseDate_ne_empty hs, parseDate_ne_empty he, lt_of_not_le hcap⟩
  constructor
  · constructor
    · intro h
      unfold classHandler at h
      dsimp only at h
      rw [if_neg hfields, hs] at h
      dsimp only at h
      rw [he] at h
      dsimp only at h
      by_cases hbf : dateBefore ed sd = true
      · exact hbf
      · rw [if_neg (by simp [Bool.not_eq_true] at hbf; simp [hbf])] at h
        split at h <;> cases h
    · intro hbf
      unfold classHandler
      dsimp only
      rw [if_neg hfields, hs]
      dsimp only
      rw [he]
      dsimp only
      rw [if_pos hbf]
  · intro heq
    have hsd : ed = sd := by
      rw [heq] at he
      rw [hs] at he
      exact (Option.some.inj he).symm
    unfold classHandler
    dsimp only
    rw [if_neg hfields, hs]
    dsimp only
    rw [he]
    dsimp only
    rw [if_neg (by rw [hsd, dateBefore_self]; simp)]
    rfl

/-- Witness for C6: scenario 5 — `start:"31-12-2024", end:"01-12-2024"`
yields InvalidRange — and a same-day class (`start = end`) is accepted. -/
theorem invalidRange_witness :
    ((classHandler true initialState ⟨0, "Box", "31-12-2024", "01-12-2024", 5⟩).1 =
        .error .invalidRange ↔
      dateBefore ⟨2024, 12, 1⟩ ⟨2024, 12, 31⟩ = true) ∧
    ((⟨0, "Box", "31-12-2024", "01-12-2024", 5⟩ : Class).endDate =
        (⟨0, "Box", "31-12-2024", "01-12-2024", 5⟩ : Class).startDate →
      (classHandler true initialState ⟨0, "Box", "31-12-2024", "01-12-2024", 5⟩).1 =
        .ok { (⟨0, "Box", "31-12-2024", "01-12-2024", 5⟩ : Class) with
                id := initialState.classId }) :=
  invalidRange_iff_end_before_start true initialState
    ⟨0, "Box", "31-12-2024", "01-12-2024", 5⟩ ⟨2024, 12, 31⟩ ⟨2024, 12, 1⟩
    (by decide) (by decide) (by decide) (by decide)

/-- A string outside the fixed `DD-MM-YYYY` layout never parses. -/
theorem parseDate_eq_none_of_not_layout {s : String} (h : dateLayout s = false) :
    parseDate s = none := by
  unfold parseDate
  split
  · next d1 d2 h1 m1 m2 h2 y1 y2 y3 y4 heq =>
    unfold dateLayout at h
    rw [heq] at h
    dsimp only at h
    rw [h]
    rfl
  · rfl

/-- Every accepted date string is in the fixed `DD-MM-YYYY` layout. -/
theorem layout_of_parseDate_some {s : String} {d : Date} (h : parseDate s = some d) :
    dateLayout s = true := by
  cases hl : dateLayout s
  · rw [parseDate_eq_none_of_not_layout hl] at h
    cases h
  · rfl

/-- C9: date parsing accepts only the fixed `DD-MM-YYYY` layout; any input
outside that layout is rejected (`parseDate` fails), and the handlers map
the failure to the field-specific format error: `classHandler` reports
which of startDate/endDate failed, `bookingHandler` reports the booking
date, all without touching the state. -/
theorem date_format_rejection :
    (∀ (s : String) (d : Date), parseDate s = some d → dateLayout s = true) ∧
    (∀ s : String, dateLayout s = false → parseDate s = none) ∧
    (∀ (p : Bool) (st : ServerState) (nc : Class),
      ¬nc.className = "" → ¬nc.startDate = "" → ¬nc.endDate = "" →
      ¬nc.capacity ≤ 0 → dateLayout nc.startDate = false →
      classHandler p st nc = (.error .invalidStartDateFormat, st)) ∧
    (∀ (p : Bool) (st : ServerState) (nc : Class) (d1 : Date),
      ¬nc.className = "" → ¬nc.endDate = "" → ¬nc.capacity ≤ 0 →
      parseDate nc.startDate = some d1 → dateLayout nc.endDate = false →
      classHandler p st nc = (.error .invalidEndDateFormat, st)) ∧
    (∀ (p : Bool) (st : ServerState) (nb : Booking),
      ¬nb.memberName = "" → ¬nb.className = "" → ¬nb.date = "" →
      dateLayout nb.date = false →
      bookingHandler p st nb = (.error .invalidDateFormat, st)) := by
  refine ⟨fun s d h => layout_of_parseDate_some h,
    fun s h => parseDate_eq_none_of_not_layout h, ?_, ?_, ?_⟩
  · intro p st nc hn hsne hene hcap hl
    unfold classHandler
    dsimp only
    rw [if_neg (by push_neg; exact ⟨hn, hsne, hene, lt_of_not_le hcap⟩)]
    rw [parseDate_eq_none_of_not_layout hl]
  · intro p st nc d1 hn hene hcap h1 hl
    unfold classHandler
    dsimp only
    rw [if_neg (by
      push_neg
      exact ⟨hn, parseDate_ne_empty h1, hene, lt_of_not_le hcap⟩)]
    rw [h1]
    dsimp only
    rw [parseDate_eq_none_of_not_layout hl]
  · intro p st nb hm hn hdne hl
    unfold bookingHandler
    dsimp only
    rw [if_neg (by push_neg; exact ⟨hm, hdne, hn⟩)]
    rw [parseDate_eq_none_of_not_layout hl]

/-- C4: a well-formed booking request whose parsed date lies strictly
outside the inclusive [start, end] range of every same-named class is
rejected with ClassUnavailable, regardless of capacity, and the state is
unchanged (the iff); and a date equal to a class's start or end date is
inside the range (second conjunct: such a class passes the scan test). -/
theorem out_of_range_rejected (p : Bool) (s : ServerState) (nb : Booking) (d : Date)
    (hm : ¬nb.memberName = "") (hcn : ¬nb.className = "")
    (hd : parseDate nb.date = some d) :
    (bookingHandler p s nb = (.error .classUnavailable, s) ↔
      ∀ c ∈ s.classes, c.className = nb.className →
        dateBefore d (parseOrZero c.startDate) = true ∨
        dateAfter d (parseOrZero c.endDate) = true) ∧
    (∀ c : Class, c.className = nb.className →
      ((parseOrZero c.startDate = d ∧ dateAfter d (parseOrZero c.endDate) = false) ∨
       (parseOrZero c.endDate = d ∧ dateBefore d (parseOrZero c.startDate) = false)) →
      activeOn nb.className d c = true) := by
  have hfields : ¬(nb.memberName = "" ∨ nb.date = "" ∨ nb.className = "") := by
    push_neg
    exact ⟨hm, parseDate_ne_empty hd, hcn⟩
  constructor
  · constructor
    · intro h c hc hname
      by_contra hcon
      push_neg at hcon
      obtain ⟨hb, ha⟩ := hcon
      replace hb : dateBefore d (parseOrZero c.startDate) = false := by
        revert hb
        cases dateBefore d (parseOrZero c.startDate) <;> simp
      replace ha : dateAfter d (parseOrZero c.endDate) = false := by
        revert ha
        cases dateAfter d (parseOrZero c.endDate) <;> simp
      have hact : activeOn nb.className d c = true := by
        unfold activeOn
        simp [hname, hb, ha]
      unfold bookingHandler at h
      dsimp only at h
      rw [if_neg hfields, hd] at h
      dsimp only at h
      cases hfind : findActiveOn s.classes nb.className d with
      | none =>
        unfold findActiveOn at hfind
        rw [List.find?_eq_none] at hfind
        exact hfind c hc hact
      | some cf =>
        rw [hfind] at h
        dsimp only at h
        split at h
        · simp at h
        · split at h <;> simp at h
    · intro hall
      have hnone : findActiveOn s.classes nb.className d = none := by
        unfold findActiveOn
        rw [List.find?_eq_none]
        intro c hc
        unfold activeOn
        by_cases hname : c.className = nb.className
        · rcases hall c hc hname with hb | ha
          · simp [hb]
          · simp [ha]
        · simp [hname]
      unfold bookingHandler
      dsimp only
      rw [if_neg hfields, hd]
      dsimp only
      rw [hnone]
  · intro c hname hcase
    unfold activeOn
    rcases hcase with ⟨hst, hafter⟩ | ⟨hend, hbefore⟩
    · have hb : dateBefore d (parseOrZero c.startDate) = false := by
        rw [hst]
        exact dateBefore_self d
      simp [hname, hb, hafter]
    · have ha : dateAfter d (parseOrZero c.endDate) = false := by
        rw [hend]
        unfold dateAfter
        exact dateBefore_self d
      simp [hname, hbefore, ha]

/-- Witness for C4: scenario 4 — booking "25-12-2024" for "Pilates"
(range 01–20 December) fails with ClassUnavailable although 9 slots
remain free. -/
theorem out_of_range_witness :
    bookingHandler true
      ⟨[⟨1, "Pilates", "01-12-2024", "20-12-2024", 10⟩], [], 2, 1⟩
      ⟨0, "Rahul R P", "25-12-2024", "Pilates"⟩ =
      (.error .classUnavailable,
        ⟨[⟨1, "Pilates", "01-12-2024", "20-12-2024", 10⟩], [], 2, 1⟩) :=
  (out_of_range_rejected true
    ⟨[⟨1, "Pilates", "01-12-2024", "20-12-2024", 10⟩], [], 2, 1⟩
    ⟨0, "Rahul R P", "25-12-2024", "Pilates"⟩ ⟨2024, 12, 25⟩
    (by decide) (by decide) (by decide)).1.mpr (by decide)

/-- C5: the class scan of the booking handler returns exactly the first
stored class definition, in insertion order, whose name matches and whose
inclusive range contains the date; every earlier definition fails the
test, so on overlapping same-named definitions the first-inserted one is
selected. -/
theorem findActiveOn_first_match (cs : List Class) (name : String) (d : Date)
    (c : Class) :
    findActiveOn cs name d = some c ↔
      activeOn name d c = true ∧
      ∃ i, ∃ hi : i < cs.length, cs[i] = c ∧
        ∀ j, ∀ hj : j < i, activeOn name d cs[j] = false := by
  rw [findActiveOn, List.find?_eq_some_iff_getElem]
  simp only [Bool.not_eq_true']

/-- C10: the booking handler performs no uniqueness check on the member:
if a booking succeeds with at least one slot still free afterwards, the
identical request (same member name, date, class name) succeeds again,
storing a second record with the next, distinct ID, consuming one more
slot, and incrementing the count for that class and date. -/
theorem duplicate_booking_allowed (s : ServerState) (nb b1 : Booking) (n1 : Int)
    (s1 : ServerState) (h : bookingHandler true s nb = (.ok (b1, n1), s1))
    (hrem : 0 < n1) :
    b1 = { nb with id := s.bookingId } ∧
    bookingHandler true s1 nb =
      (.ok ({ nb with id := s.bookingId + 1 }, n1 - 1),
        { s1 with bookings := s1.bookings ++ [{ nb with id := s.bookingId + 1 }],
                  bookingId := s.bookingId + 2 }) ∧
    ¬b1.id = s.bookingId + 1 ∧
    countFor s1.bookings nb.className nb.date =
      countFor s.bookings nb.className nb.date + 1 := by
  obtain ⟨-, h1, h2, h3, d, c, hd, hc, hlt, hb, hn, hs⟩ := (bookingHandler_ok_iff ..).mp h
  have hcount : countFor s1.bookings nb.className nb.date =
      countFor s.bookings nb.className nb.date + 1 := by
    rw [hs]
    dsimp only
    rw [countFor_append]
    simp
  refine ⟨hb, ?_, ?_, hcount⟩
  · apply (bookingHandler_ok_iff ..).mpr
    refine ⟨rfl, h1, h2, h3, d, c, hd, ?_, ?_, ?_, ?_, ?_⟩
    · rw [hs]
      exact hc
    · rw [hcount]
      push_cast
      omega
    · rw [hs]
    · rw [hcount]
      push_cast
      omega
    · rw [hs]
      dsimp only
      simp only [ServerState.mk.injEq, and_true, true_and, eq_self_iff_true]
      omega
  · rw [hb]
    dsimp only
    omega

/-- Witness for C10: with the capacity-10 "Pilates" class, the booking of
scenario 2 repeated identically succeeds again with booking ID 2 and
`availableSlots = 8`. -/
theorem duplicate_booking_witness :
    (⟨1, "Rahul R P", "16-12-2024", "Pilates"⟩ : Booking) =
      { (⟨0, "Rahul R P", "16-12-2024", "Pilates"⟩ : Booking) with id := 1 } ∧
    bookingHandler true
      ⟨[⟨1, "Pilates", "01-12-2024", "20-12-2024", 10⟩],
        [⟨1, "Rahul R P", "16-12-2024", "Pilates"⟩], 2, 2⟩
      ⟨0, "Rahul R P", "16-12-2024", "Pilates"⟩ =
      (.ok (⟨2, "Rahul R P", "16-12-2024", "Pilates"⟩, 8),
        ⟨[⟨1, "Pilates", "01-12-2024", "20-12-2024", 10⟩],
          [⟨1, "Rahul R P", "16-12-2024", "Pilates"⟩,
           ⟨2, "Rahul R P", "16-12-2024", "Pilates"⟩], 2, 3⟩) ∧
    ¬(1 : Int) = 1 + 1 ∧
    countFor [⟨1, "Rahul R P", "16-12-2024", "Pilates"⟩] "Pilates" "16-12-2024" =
      countFor ([] : List Booking) "Pilates" "16-12-2024" + 1 :=
  duplicate_booking_allowed
    ⟨[⟨1, "Pilates", "01-12-2024", "20-12-2024", 10⟩], [], 2, 1⟩
    ⟨0, "Rahul R P", "16-12-2024", "Pilates"⟩
    ⟨1, "Rahul R P", "16-12-2024", "Pilates"⟩ 9
    ⟨[⟨1, "Pilates", "01-12-2024", "20-12-2024", 10⟩],
      [⟨1, "Rahul R P", "16-12-2024", "Pilates"⟩], 2, 2⟩
    rfl (by norm_num)

/-- The two possible post-states of `classHandler`: unchanged on any
rejection before the append, or the class appended (with the next ID and a
positive capacity) and the counter bumped — also when persistence fails. -/
theorem classHandler_state_cases (p : Bool) (s : ServerState) (nc : Class) :
    (classHandler p s nc).2 = s ∨
    (0 < nc.capacity ∧
      (classHandler p s nc).2 =
        { s with classes := s.classes ++ [{ nc with id := s.classId }],
                 classId := s.classId + 1 }) := by
  unfold classHandler
  dsimp only
  split
  · exact Or.inl rfl
  · next hf =>
    push_neg at hf
    split
    · exact Or.inl rfl
    · split
      · exact Or.inl rfl
      · split
        · exact Or.inl rfl
        · split
          · exact Or.inr ⟨hf.2.2.2, rfl⟩
          · exact Or.inr ⟨hf.2.2.2, rfl⟩

/-- The two possible post-states of `bookingHandler`: unchanged on any
rejection before the append, or the booking appended after the admission
checks passed (class found, pre-admission count below its capacity). -/
theorem bookingHandler_state_cases (p : Bool) (s : ServerState) (nb : Booking) :
    (bookingHandler p s nb).2 = s ∨
    (∃ d c, parseDate nb.date = some d ∧
      findActiveOn s.classes nb.className d = some c ∧
      (countFor s.bookings nb.className nb.date : Int) < c.capacity ∧
      (bookingHandler p s nb).2 =
        { s with bookings := s.bookings ++ [{ nb with id := s.bookingId }],
                 bookingId := s.bookingId + 1 }) := by
  unfold bookingHandler
  dsimp only
  split
  · exact Or.inl rfl
  · split
    · exact Or.inl rfl
    · next d hd =>
      split
      · exact Or.inl rfl
      · next c hc =>
        split
        · exact Or.inl rfl
        · next hle =>
          split
          · exact Or.inr ⟨d, c, hd, hc, by omega, rfl⟩
          · exact Or.inr ⟨d, c, hd, hc, by omega, rfl⟩

/-- Each handler call preserves sequential gap-free IDs. -/
theorem idsSequential_applyReq (s : ServerState) (r : Request)
    (h : idsSequential s) : idsSequential (applyReq s r) := by
  obtain ⟨hc, hb, hcg, hbg⟩ := h
  cases r with
  | reg ok nc =>
    show idsSequential (classHandler ok s nc).2
    rcases classHandler_state_cases ok s nc with heq | ⟨-, heq⟩
    · rw [heq]
      exact ⟨hc, hb, hcg, hbg⟩
    · rw [heq]
      refine ⟨by simp; omega, hb, ?_, hbg⟩
      intro i hi
      simp only [List.length_append, List.length_cons, List.length_nil] at hi
      by_cases hlt : i < s.classes.length
      · rw [List.getElem_append_left hlt]
        exact hcg i hlt
      · have hieq : i = s.classes.length := by omega
        rw [List.getElem_concat_length _ _ _ hieq]
        dsimp only
        omega
  | book ok nb =>
    show idsSequential (bookingHandler ok s nb).2
    rcases bookingHandler_state_cases ok s nb with heq | ⟨d, c, -, -, -, heq⟩
    · rw [heq]
      exact ⟨hc, hb, hcg, hbg⟩
    · rw [heq]
      refine ⟨hc, by simp; omega, hcg, ?_⟩
      intro i hi
      simp only [List.length_append, List.length_cons, List.length_nil] at hi
      by_cases hlt : i < s.bookings.length
      · rw [List.getElem_append_left hlt]
        exact hbg i hlt
      · have hieq : i = s.bookings.length := by omega
        rw [List.getElem_concat_length _ _ _ hieq]
        dsimp only
        omega

/-- Each handler call preserves the capacity invariant. -/
theorem capacityInv_applyReq (s : ServerState) (r : Request)
    (h : capacityInv s) : capacityInv (applyReq s r) := by
  cases r with
  | reg ok nc =>
    show capacityInv (classHandler ok s nc).2
    rcases classHandler_state_cases ok s nc with heq | ⟨hcap, heq⟩
    · rw [heq]
      exact h
    · rw [heq]
      intro name dstr d hd
      dsimp only
      rcases hfind : findActiveOn s.classes name d with _ | c
      · have h0 : countFor s.bookings name dstr = 0 := (h name dstr d hd).2 hfind
        rw [findActiveOn_append_of_none _ hfind]
        constructor
        · intro c hc2
          have hcs : c = { nc with id := s.classId } := by
            unfold findActiveOn at hc2
            simp only [List.find?] at hc2
            split at hc2
            · exact (Option.some.inj hc2).symm
            · cases hc2
          rw [h0, hcs]
          dsimp only
          omega
        · intro _
          exact h0
      · rw [findActiveOn_append_of_some _ hfind]
        constructor
        · intro c' hc'
          obtain rfl : c = c' := Option.some.inj hc'
          exact (h name dstr d hd).1 c hfind
        · intro hnone
          cases hnone
  | book ok nb =>
    show capacityInv (bookingHandler ok s nb).2
    rcases bookingHandler_state_cases ok s nb with heq | ⟨d0, c0, hd0, hc0, hlt0, heq⟩
    · rw [heq]
      exact h
    · rw [heq]
      intro name dstr d hd
      dsimp only
      have hcnt := countFor_append s.bookings { nb with id := s.bookingId } name dstr
      by_cases hkey : nb.className = name ∧ nb.date = dstr
      · obtain ⟨hkn, hkd⟩ := hkey
        have hdd : d = d0 := by
          rw [← hkd] at hd
          exact Option.some.inj (hd.symm.trans hd0)
        constructor
        · intro c hcf
          have hcc : c = c0 := by
            rw [← hkn, hdd] at hcf
            exact Option.some.inj (hcf.symm.trans hc0)
          rw [hcnt, if_pos ⟨hkn, hkd⟩, hcc]
          rw [← hkn, ← hkd] at *
          push_cast
          omega
        · intro hnone
          rw [← hkn, hdd] at hnone
          rw [hc0] at hnone
          cases hnone
      · constructor
        · intro c hcf
          have hold := (h name dstr d hd).1 c hcf
          rw [hcnt, if_neg (by dsimp only; exact hkey)]
          push_cast
          omega
        · intro hnone
          have h0 := (h name dstr d hd).2 hnone
          rw [hcnt, if_neg (by dsimp only; exact hkey), h0]

/-- The capacity invariant holds along any run. -/
theorem capacityInv_runReqs (rs : List Request) :
    ∀ s : ServerState, capacityInv s → capacityInv (runReqs s rs) := by
  induction rs with
  | nil => exact fun s h => h
  | cons r rs ih =>
    intro s h
    exact ih (applyReq s r) (capacityInv_applyReq s r h)

/-- Sequential IDs hold along any run. -/
theorem idsSequential_runReqs (rs : List Request) :
    ∀ s : ServerState, idsSequential s → idsSequential (runReqs s rs) := by
  induction rs with
  | nil => exact fun s h => h
  | cons r rs ih =>
    intro s h
    exact ih (applyReq s r) (idsSequential_applyReq s r h)

/-- The fresh-process state satisfies the capacity invariant. -/
theorem capacityInv_initial : capacityInv initialState := by
  intro name dstr d hd
  exact ⟨fun c hc => (by cases hc), fun _ => rfl⟩

/-- The fresh-process state has sequential IDs. -/
theorem idsSequential_initial : idsSequential initialState :=
  ⟨rfl, rfl, fun i hi => absurd hi (by simp [initialState]),
    fun i hi => absurd hi (by simp [initialState])⟩

/-- C1 (amended): after any sequence of handler calls from a fresh start,
the number of bookings stored for a class name and a date never exceeds
the capacity of the class definition the scan selects for that name and
date (the first-inserted same-named definition whose range contains it);
and a booking is admitted only when the pre-admission count for its class
name and date is strictly below that matching class's capacity. -/
theorem capacity_of_selected_class_never_exceeded :
    (∀ (rs : List Request) (name dstr : String) (d : Date) (c : Class),
      parseDate dstr = some d →
      findActiveOn (runReqs initialState rs).classes name d = some c →
      (countFor (runReqs initialState rs).bookings name dstr : Int) ≤ c.capacity) ∧
    (∀ (p : Bool) (s : ServerState) (nb b : Booking) (n : Int) (s' : ServerState),
      bookingHandler p s nb = (.ok (b, n), s') →
      ∃ d c, parseDate nb.date = some d ∧
        findActiveOn s.classes nb.className d = some c ∧
        (countFor s.bookings nb.className nb.date : Int) < c.capacity) := by
  constructor
  · intro rs name dstr d c hd hc
    exact (capacityInv_runReqs rs initialState capacityInv_initial name dstr d hd).1 c hc
  · intro p s nb b n s' h
    obtain ⟨-, -, -, -, d, c, hd, hc, hlt, -, -, -⟩ := (bookingHandler_ok_iff ..).mp h
    exact ⟨d, c, hd, hc, hlt⟩

/-- Witness for C1: in the scenario-1/2 state, the count for "Pilates" on
"16-12-2024" after one admitted booking is below the selected class's
capacity, instantiating both conjuncts at a concrete input. -/
theorem capacity_of_selected_class_witness :
    (countFor (runReqs initialState
        [.reg true ⟨0, "Pilates", "01-12-2024", "20-12-2024", 10⟩,
         .book true ⟨0, "Rahul R P", "16-12-2024", "Pilates"⟩]).bookings
      "Pilates" "16-12-2024" : Int) ≤
      (⟨1, "Pilates", "01-12-2024", "20-12-2024", 10⟩ : Class).capacity :=
  capacity_of_selected_class_never_exceeded.1
    [.reg true ⟨0, "Pilates", "01-12-2024", "20-12-2024", 10⟩,
     .book true ⟨0, "Rahul R P", "16-12-2024", "Pilates"⟩]
    "Pilates" "16-12-2024" ⟨2024, 12, 16⟩
    ⟨1, "Pilates", "01-12-2024", "20-12-2024", 10⟩ (by decide) (by decide)

/-- Counterexample to C1 as stated: registering two same-named "Yoga"
classes with identical ranges and capacities 2 and 1 and booking the date
twice yields two stored bookings for that class name and date, exceeding
the capacity 1 of the second stored class definition — the universal
"never exceeds C's capacity for every class C" fails. -/
theorem capacity_claim_counterexample :
    (⟨2, "Yoga", "01-12-2024", "31-12-2024", 1⟩ : Class) ∈
        (runReqs initialState twoYogaRun).classes ∧
    countFor (runReqs initialState twoYogaRun).bookings "Yoga" "16-12-2024" = 2 ∧
    ¬((countFor (runReqs initialState twoYogaRun).bookings "Yoga" "16-12-2024" : Int) ≤
        (⟨2, "Yoga", "01-12-2024", "31-12-2024", 1⟩ : Class).capacity) := by
  have hrun : runReqs initialState twoYogaRun =
      ⟨[⟨1, "Yoga", "01-12-2024", "31-12-2024", 2⟩,
        ⟨2, "Yoga", "01-12-2024", "31-12-2024", 1⟩],
       [⟨1, "Asha", "16-12-2024", "Yoga"⟩, ⟨2, "Ben", "16-12-2024", "Yoga"⟩],
       3, 3⟩ := rfl
  rw [hrun]
  refine ⟨by simp, rfl, by decide⟩

/-- C2 (amended): within a single process run, successful RegisterClass
calls assign the strictly increasing gap-free IDs 1, 2, 3, … in order and
the counter stays one past the last ID; the same holds for CreateBooking;
but on a process restart both counters are reset to 1 regardless of the
reloaded persisted state. -/
theorem ids_sequential_within_run_reset_on_restart :
    (∀ rs : List Request, idsSequential (runReqs initialState rs)) ∧
    (∀ (cs : List Class) (bs : List Booking),
      (restartState cs bs).classId = 1 ∧ (restartState cs bs).bookingId = 1) :=
  ⟨fun rs => idsSequential_runReqs rs initialState idsSequential_initial,
   fun _ _ => ⟨rfl, rfl⟩⟩

/-- Counterexample to C2 as stated: after a restart that reloads one
persisted class with ID 1, the next successful RegisterClass call assigns
ID 1 again — the ID is reused across the restart because `main` never
restores the counters from the loaded data. -/
theorem id_reused_after_restart_counterexample :
    (classHandler true
        (restartState [⟨1, "Pilates", "01-12-2024", "20-12-2024", 10⟩] [])
        ⟨0, "Yoga", "01-12-2024", "31-12-2024", 20⟩).1 =
      .ok ⟨1, "Yoga", "01-12-2024", "31-12-2024", 20⟩ ∧
    (⟨1, "Pilates", "01-12-2024", "20-12-2024", 10⟩ : Class) ∈
      (restartState [⟨1, "Pilates", "01-12-2024", "20-12-2024", 10⟩] []).classes :=
  ⟨rfl, by simp [restartState]⟩

example : parseDate "16-12-2024" = some ⟨2024, 12, 16⟩ := by decide

example : parseDate "12/16/2024" = none := by decide

example : parseDate "31-11-2024" = none := by decide

example : parseDate "29-02-2024" = some ⟨2024, 2, 29⟩ := by decide

example :
    classHandler true initialState ⟨0, "Pilates", "01-12-2024", "20-12-2024", 10⟩ =
      (.ok ⟨1, "Pilates", "01-12-2024", "20-12-2024", 10⟩,
        ⟨[⟨1, "Pilates", "01-12-2024", "20-12-2024", 10⟩], [], 2, 1⟩) := rfl

end Gym
